import Mathlib

/-!
Verification of `dialdoc/models/rag/distributed_pytorch_retriever.py`
(`RagPyTorchDistributedRetriever`), a distributed retriever built on
`torch.distributed`.

Shallow embedding: numpy/torch arrays become lists of rows (a 2-D array is a
`List (List β)`, a 3-D array a `List (List (List β))`); the external index
collaborator (`_main_retrieve`, `get_doc_dicts`, `init_index`) is an opaque
function parameter; the `torch.distributed` collectives (`gather`, `scatter`,
`barrier`, `new_group`) are modelled by their documented semantics: a
collective in which some rank sends a tensor whose size differs from the
buffer pre-allocated for it on the receiving side fails the whole collective
(the gloo backend validates sizes and raises; the spec likewise declares
shape mismatches between sender and receiver expectations fatal), and
fallible paths return `Option`.

The multi-process `retrieve` is modelled as a system-level function from the
list of per-worker inputs (index = rank within the retrieval group) to the
list of per-worker outputs, `none` meaning the collective call aborts.
Per-worker outputs carry, besides the returned arrays, the list of index
operations and collective operations the worker performed, so that claims
about which rank invokes which collaborator are statable.
-/

set_option maxHeartbeats 1000000

namespace DialDoc

/-- A 2-D array (numpy matrix / torch tensor of rank 2) as a list of rows. -/
abbrev Mat (β : Type) := List (List β)

/-- A 3-D array (torch tensor of rank 3) as a list of matrices. -/
abbrev Cube (β : Type) := List (List (List β))

/-- `shape[1]` of a 2-D numpy array: the common length of its rows
(the length of the first row in the list model). -/
def width (m : Mat β) : Nat :=
  match m with
  | [] => 0
  | r :: _ => r.length

/-- The full size information of a list-of-rows value: number of rows paired
with the list of row lengths.  Two rectangular tensors have equal torch
shapes iff their `matDims` agree. -/
def matDims (m : Mat β) : Nat × List Nat := (m.length, m.map List.length)

/-- The value is a rectangular `r × c` array. -/
def rowsCols (m : Mat β) (r c : Nat) : Prop :=
  m.length = r ∧ ∀ row ∈ m, row.length = c

instance (m : Mat β) (r c : Nat) : Decidable (rowsCols m r c) :=
  inferInstanceAs (Decidable (m.length = r ∧ ∀ row ∈ m, row.length = c))

/-- The value is a rectangular `r × c × d` array. -/
def cubeShape (t : Cube β) (r c d : Nat) : Prop :=
  t.length = r ∧ ∀ m ∈ t, rowsCols m c d

instance (t : Cube β) (r c d : Nat) : Decidable (cubeShape t r c d) :=
  inferInstanceAs (Decidable (t.length = r ∧ ∀ m ∈ t, rowsCols m c d))

/-- Fuel-driven worker for `chunkTensor`; the fuel is the length of the list,
which bounds the number of produced chunks when the chunk size is positive. -/
def chunkGo (chunkSize : Nat) : Nat → List β → List (List β)
  | _, [] => []
  | 0, _ :: _ => []
  | fuel + 1, x :: xs =>
      (x :: xs).take chunkSize :: chunkGo chunkSize fuel ((x :: xs).drop chunkSize)

/-- `RagRetriever._chunk_tensor(t, chunk_size)`, i.e.
`[t[i : i + chunk_size] for i in range(0, len(t), chunk_size)]`, slicing along
the leading dimension.  `range` with step `0` raises `ValueError` in Python,
hence `none` for chunk size `0`. -/
def chunkTensor (t : List β) (chunkSize : Nat) : Option (List (List β)) :=
  if chunkSize = 0 then none else some (chunkGo chunkSize t.length t)

/-- `RagPyTorchDistributedRetriever._is_main`:
`dist.get_rank(group=self.process_group) == 0`. -/
def isMain (rank : Nat) : Bool := rank == 0

/-- Python `s.startswith(p)`: the characters of `p` are a prefix of the
characters of `s`. -/
def pyStartsWith (s p : String) : Bool := p.data.isPrefixOf s.data

/-- `RagPyTorchDistributedRetriever._infer_socket_ifname`:
`next((addr for addr in addrs if addr.startswith("e")), None)` where `addrs`
enumerates the network interface names reported by `psutil.net_if_addrs()`. -/
def inferSocketIfname (addrs : List String) : Option String :=
  addrs.find? (fun addr => pyStartsWith addr "e")

/-- Events a process performs while running `init_retrieval` (and, for the
happens-before statement, the start of its first subsequent `retrieve`). -/
inductive InitEvent where
  | setEnv (key value : String)
  | newGroup (backend : String) (allRanks : Bool)
  | initIndex
  | barrier
  | retrieveStart
  deriving DecidableEq

/-- `RagPyTorchDistributedRetriever.init_retrieval(distributed_port)` as the
ordered list of events the calling process performs.  `distInitialized` is
`dist.is_initialized()`, `rank` the process rank within the retrieval group,
`addrs` the interface names seen by `_infer_socket_ifname`.  In the
distributed branch the code assigns `os.environ["GLOO_SOCKET_IFNAME"]` the
result of `_infer_socket_ifname`; assigning `None` to an environ key raises
`TypeError`, hence `none` when no interface name starts with `"e"`.
`dist.new_group(ranks=None, backend="gloo")` is recorded as
`newGroup "gloo" true` (`ranks=None` means all ranks). -/
def init_retrieval (distInitialized : Bool) (rank : Nat) (distributedPort : Nat)
    (addrs : List String) : Option (List InitEvent) :=
  if distInitialized then
    match inferSocketIfname addrs with
    | none => none
    | some ifname =>
        some ([InitEvent.setEnv "GLOO_SOCKET_IFNAME" ifname,
               InitEvent.setEnv "MASTER_PORT" (toString (distributedPort + 1)),
               InitEvent.newGroup "gloo" true] ++
              (if isMain rank then [InitEvent.initIndex] else []) ++
              [InitEvent.barrier])
  else
    some [InitEvent.initIndex]

/-- The timeline of a process in multi-process mode: its `init_retrieval`
events followed by the start of its first `retrieve` call (which can only be
issued after `init_retrieval` has returned). -/
def timeline (rank distributedPort : Nat) (addrs : List String) : List InitEvent :=
  ((init_retrieval true rank distributedPort addrs).getD []) ++ [InitEvent.retrieveStart]

/-- Position of the (unique) barrier event in a timeline. -/
def barrierPos (t : List InitEvent) : Nat :=
  t.findIdx (fun e => decide (e = InitEvent.barrier))

/-- Happens-before between events of a system with one collective barrier.
An event is a pair (rank, position in that rank's timeline).  `e₁` happens
before `e₂` if they are on the same rank with `e₁` earlier in program order,
or if `e₁` is at or before its rank's barrier entry and `e₂` is after its
rank's barrier release: a barrier releases only once every participant has
entered it, so everything at or before any entry happens before everything
after any release. -/
def hbEvents (tl : Nat → List InitEvent) (e₁ e₂ : Nat × Nat) : Prop :=
  (e₁.1 = e₂.1 ∧ e₁.2 < e₂.2) ∨
  (e₁.2 ≤ barrierPos (tl e₁.1) ∧ barrierPos (tl e₂.1) < e₂.2)

/-- The per-call arguments of `retrieve` on one worker.  `extras` bundles the
pass-through arguments `dialog_lengths` and `domain`, which `retrieve` never
inspects. -/
structure RetrieveInput (α ε : Type) where
  combined_hidden_states : Mat α
  current_hidden_states : Mat α
  history_hidden_states : Mat α
  n_docs : Nat
  extras : ε
  deriving DecidableEq

/-- The result triple of the external index routine `_main_retrieve`:
`(doc_ids, retrieved_doc_embeds, doc_scores)`. -/
structure MainRetrieveResult (α : Type) where
  doc_ids : Mat Int
  vectors : Cube α
  scores : Mat α
  deriving DecidableEq

/-- Index-collaborator operations a worker can invoke during `retrieve`. -/
inductive IndexOp where
  | mainRetrieveOp
  | getDocDictsOp
  deriving DecidableEq

/-- Collective-transport operations a worker can invoke during `retrieve`. -/
inductive CollOp where
  | gatherOp
  | scatterOp
  deriving DecidableEq

/-- What one worker's `retrieve` call returns, together with the index
operations and collective operations that worker performed during the call. -/
structure RetrieveOutput (α D : Type) where
  retrieved_doc_embeds : Cube α
  doc_ids : Mat Int
  doc_scores : Mat α
  doc_dicts : D
  indexOps : List IndexOp
  collOps : List CollOp
  deriving DecidableEq

/-- The single-process branch of `retrieve` (`not dist.is_initialized()`):
call `_main_retrieve` with this process's own arguments, then return
`(retrieved_doc_embeds, doc_ids, doc_scores, self.index.get_doc_dicts(doc_ids))`.
No collective operation is performed in this branch. -/
def retrieveSingle (f : Mat α → Mat α → Mat α → Nat → ε → MainRetrieveResult α)
    (getDocDicts : Mat Int → D) (inp : RetrieveInput α ε) : RetrieveOutput α D :=
  let r := f inp.combined_hidden_states inp.current_hidden_states
      inp.history_hidden_states inp.n_docs inp.extras
  { retrieved_doc_embeds := r.vectors
    doc_ids := r.doc_ids
    doc_scores := r.scores
    doc_dicts := getDocDicts r.doc_ids
    indexOps := [IndexOp.mainRetrieveOp, IndexOp.getDocDictsOp]
    collOps := [] }

/-- Modelled from the spec: "directly invoke the retrieval routine with this
process's own batch and number-of-docs parameter; wrap the resulting ids
through the document-dictionary lookup; return" — the result
`(doc_embeds, doc_ids, doc_scores, doc_dicts)` of invoking the retrieval
routine directly, against which the single-process path is compared. -/
def directRetrieve (f : Mat α → Mat α → Mat α → Nat → ε → MainRetrieveResult α)
    (getDocDicts : Mat Int → D) (inp : RetrieveInput α ε) :
    Cube α × Mat Int × Mat α × D :=
  let r := f inp.combined_hidden_states inp.current_hidden_states
      inp.history_hidden_states inp.n_docs inp.extras
  (r.vectors, r.doc_ids, r.scores, getDocDicts r.doc_ids)

/-- Success condition of the three `dist.gather` calls: rank 0 pre-allocates
`world_size` buffers per gather with `torch.empty(<rank 0's own shape>)`
(lines 133-135), so each gather succeeds iff every rank's tensor has rank 0's
shape. -/
def gatherPre (inp0 : RetrieveInput α ε) (inputs : List (RetrieveInput α ε)) : Prop :=
  ∀ inp ∈ inputs,
    matDims inp.combined_hidden_states = matDims inp0.combined_hidden_states ∧
    matDims inp.current_hidden_states = matDims inp0.current_hidden_states ∧
    matDims inp.history_hidden_states = matDims inp0.history_hidden_states

instance (inp0 : RetrieveInput α ε) (inputs : List (RetrieveInput α ε)) :
    Decidable (gatherPre inp0 inputs) :=
  inferInstanceAs (Decidable (∀ inp ∈ inputs,
    matDims inp.combined_hidden_states = matDims inp0.combined_hidden_states ∧
    matDims inp.current_hidden_states = matDims inp0.current_hidden_states ∧
    matDims inp.history_hidden_states = matDims inp0.history_hidden_states))

/-- Success condition of the three `_scattered` calls: rank 0 must supply one
chunk per rank (`dist.scatter` requires `len(scatter_list) == world_size`),
and the chunk sent to worker `w` must fill exactly the buffer worker `w`
allocated with `torch.empty(target_shape)` from its own inputs
(`[n_queries, n_docs]` for ids and scores,
`[n_queries, n_docs, combined_hidden_states.shape[1]]` for embeddings). -/
def scatterPost (inp0 : RetrieveInput α ε) (inputs : List (RetrieveInput α ε))
    (si : List (Mat Int)) (sv : List (Cube α)) (ss : List (Mat α)) : Prop :=
  si.length = inputs.length ∧ sv.length = inputs.length ∧ ss.length = inputs.length ∧
  ∀ w, w < inputs.length →
    rowsCols (si.getD w [])
      (inputs.getD w inp0).combined_hidden_states.length (inputs.getD w inp0).n_docs ∧
    cubeShape (sv.getD w [])
      (inputs.getD w inp0).combined_hidden_states.length (inputs.getD w inp0).n_docs
      (width (inputs.getD w inp0).combined_hidden_states) ∧
    rowsCols (ss.getD w [])
      (inputs.getD w inp0).combined_hidden_states.length (inputs.getD w inp0).n_docs

instance (inp0 : RetrieveInput α ε) (inputs : List (RetrieveInput α ε))
    (si : List (Mat Int)) (sv : List (Cube α)) (ss : List (Mat α)) :
    Decidable (scatterPost inp0 inputs si sv ss) :=
  inferInstanceAs (Decidable (si.length = inputs.length ∧ sv.length = inputs.length ∧
    ss.length = inputs.length ∧
    ∀ w, w < inputs.length →
      rowsCols (si.getD w [])
        (inputs.getD w inp0).combined_hidden_states.length (inputs.getD w inp0).n_docs ∧
      cubeShape (sv.getD w [])
        (inputs.getD w inp0).combined_hidden_states.length (inputs.getD w inp0).n_docs
        (width (inputs.getD w inp0).combined_hidden_states) ∧
      rowsCols (ss.getD w [])
        (inputs.getD w inp0).combined_hidden_states.length (inputs.getD w inp0).n_docs))

/-- What worker `w` returns from the multi-process `retrieve` once the
collectives succeeded: its received chunks of each scattered array, the
document dictionaries it resolves itself from its own received ids
(line 161 runs on every rank), the index operations it performed
(`_main_retrieve` only inside `if self._is_main()`, `get_doc_dicts` always),
and its collective operations (three gathers then three scatters). -/
def workerOutput (g : Mat Int → D) (si : List (Mat Int)) (sv : List (Cube α))
    (ss : List (Mat α)) (w : Nat) : RetrieveOutput α D :=
  { retrieved_doc_embeds := sv.getD w []
    doc_ids := si.getD w []
    doc_scores := ss.getD w []
    doc_dicts := g (si.getD w [])
    indexOps := (if w = 0 then [IndexOp.mainRetrieveOp] else []) ++ [IndexOp.getDocDictsOp]
    collOps := [CollOp.gatherOp, CollOp.gatherOp, CollOp.gatherOp,
                CollOp.scatterOp, CollOp.scatterOp, CollOp.scatterOp] }

/-- The concatenation (in rank order) of the per-worker query batches, as a
single `retrieve` input: `torch.cat(gather_list_i)` applied to the three
gathered lists (whose entry `w` is worker `w`'s matrix) is exactly the
flattening of the per-worker matrices in rank order.  The scalar arguments
are rank 0's, which is what the centralized `_main_retrieve` call receives. -/
def concatInput (inp0 : RetrieveInput α ε) (rest : List (RetrieveInput α ε)) :
    RetrieveInput α ε :=
  { combined_hidden_states := ((inp0 :: rest).map (fun inp => inp.combined_hidden_states)).flatten
    current_hidden_states := ((inp0 :: rest).map (fun inp => inp.current_hidden_states)).flatten
    history_hidden_states := ((inp0 :: rest).map (fun inp => inp.history_hidden_states)).flatten
    n_docs := inp0.n_docs
    extras := inp0.extras }

/-- The global result of the centralized `_main_retrieve` call on rank 0:
`self._main_retrieve(comb_h_s, curr_h_s, hist_h_s, n_docs, dialog_lengths, domain)`
where the three matrices are the concatenations of the gathered per-worker
matrices and the scalars are rank 0's own. -/
def globalResult (f : Mat α → Mat α → Mat α → Nat → ε → MainRetrieveResult α)
    (inp0 : RetrieveInput α ε) (rest : List (RetrieveInput α ε)) : MainRetrieveResult α :=
  f (concatInput inp0 rest).combined_hidden_states
    (concatInput inp0 rest).current_hidden_states
    (concatInput inp0 rest).history_hidden_states
    inp0.n_docs inp0.extras

/-- The distributed branch of `retrieve`, as a function of the per-rank
inputs (head = rank 0).  Mirrors lines 126-161: gather the three query
matrices into rank-0-shaped buffers (`gatherPre`), `torch.cat` them in rank
order and run `_main_retrieve` once on rank 0 (`globalResult`), chunk the
three result arrays by rank 0's own `n_queries`, scatter chunk `w` to worker
`w` (`scatterPost`), and have every worker resolve `get_doc_dicts` on its
received ids.  `none` models an aborted collective call. -/
def retrieveMultiCore (f : Mat α → Mat α → Mat α → Nat → ε → MainRetrieveResult α)
    (g : Mat Int → D) (inp0 : RetrieveInput α ε) (rest : List (RetrieveInput α ε)) :
    Option (List (RetrieveOutput α D)) :=
  if gatherPre inp0 (inp0 :: rest) then
    (chunkTensor (globalResult f inp0 rest).doc_ids
        inp0.combined_hidden_states.length).bind fun scatter_ids =>
    (chunkTensor (globalResult f inp0 rest).vectors
        inp0.combined_hidden_states.length).bind fun scatter_vectors =>
    (chunkTensor (globalResult f inp0 rest).scores
        inp0.combined_hidden_states.length).bind fun scatter_scores =>
    if scatterPost inp0 (inp0 :: rest) scatter_ids scatter_vectors scatter_scores then
      some ((List.range (inp0 :: rest).length).map
        (workerOutput g scatter_ids scatter_vectors scatter_scores))
    else none
  else none

/-- System-level multi-process `retrieve`: per-rank inputs in, per-rank
outputs out; `none` when the collective call aborts (in particular there is
no run with zero participants). -/
def retrieveMulti (f : Mat α → Mat α → Mat α → Nat → ε → MainRetrieveResult α)
    (g : Mat Int → D) : List (RetrieveInput α ε) → Option (List (RetrieveOutput α D))
  | [] => none
  | inp0 :: rest => retrieveMultiCore f g inp0 rest

/-- torch dtypes appearing in the receive buffers of `retrieve`. -/
inductive DType where
  | int64
  | float32
  deriving DecidableEq

/-- The `(target_shape, target_type)` arguments of the three `_scattered`
calls a worker issues (lines 157-159), computed from that worker's own
inputs only: ids as int64 `[n_queries, n_docs]`, embeddings as float32
`[n_queries, n_docs, combined_hidden_states.shape[1]]`, scores as float32
`[n_queries, n_docs]`. -/
def scatterSpecs (inp : RetrieveInput α ε) : List (List Nat × DType) :=
  [([inp.combined_hidden_states.length, inp.n_docs], DType.int64),
   ([inp.combined_hidden_states.length, inp.n_docs, width inp.combined_hidden_states],
     DType.float32),
   ([inp.combined_hidden_states.length, inp.n_docs], DType.float32)]

/-- A concrete, well-shaped stand-in for the external `_main_retrieve` used to
evaluate the pipeline on concrete inputs: for a batch of `B` combined vectors
and `n` requested docs it returns `B × n` ids, `B × n × d` embeddings (each
doc embedding a copy of the query row) and `B × n` scores. -/
def testRetrieve : Mat Int → Mat Int → Mat Int → Nat → Unit → MainRetrieveResult Int :=
  fun comb _ _ n _ =>
    { doc_ids := comb.map (fun _ => (List.range n).map Int.ofNat)
      vectors := comb.map (fun row => (List.range n).map (fun _ => row))
      scores := comb.map (fun _ => (List.range n).map (fun k => (Int.ofNat k) + 1)) }

/-- A concrete `retrieve` input whose three hidden-state matrices coincide. -/
def inpOf (m : Mat Int) (nd : Nat) : RetrieveInput Int Unit :=
  { combined_hidden_states := m
    current_hidden_states := m
    history_hidden_states := m
    n_docs := nd
    extras := () }

/-! ### Helper lemmas -/

theorem getD_map_range (n : Nat) (fn : Nat → β) (w : Nat) (d : β) (h : w < n) :
    ((List.range n).map fn).getD w d = fn w := by
  have hlen : w < ((List.range n).map fn).length := by simpa using h
  rw [List.getD_eq_getElem _ _ hlen, List.getElem_map, List.getElem_range]

theorem range_map_getD (l : List β) (d : β) :
    (List.range l.length).map (fun w => l.getD w d) = l := by
  apply List.ext_getElem
  · simp
  · intro i h1 h2
    simp only [List.getElem_map, List.getElem_range]
    rw [List.getD_eq_getElem _ _ (by simpa using h2)]

theorem range_map_getD_of_length (n : Nat) (l : List β) (d : β) (h : l.length = n) :
    (List.range n).map (fun w => l.getD w d) = l := by
  subst h; exact range_map_getD l d

theorem range_map_getD_map (n : Nat) (fn : Nat → β) (d : β) :
    (List.range n).map (fun w => ((List.range n).map fn).getD w d) = (List.range n).map fn := by
  apply List.map_congr_left
  intro w hw
  exact getD_map_range n fn w d (by simpa using hw)

theorem chunkGo_uniform (cs : Nat) (hcs : 1 ≤ cs) :
    ∀ (W : Nat) (l : List β) (fuel : Nat), l.length = W * cs → l.length ≤ fuel →
      chunkGo cs fuel l = (List.range W).map (fun w => (l.drop (w * cs)).take cs) := by
  intro W
  induction W with
  | zero =>
      intro l fuel hlen _
      have hnil : l = [] := List.eq_nil_of_length_eq_zero (by simpa using hlen)
      subst hnil
      cases fuel <;> simp [chunkGo]
  | succ W ih =>
      intro l fuel hlen hfuel
      have hpos : 1 ≤ l.length := by rw [hlen, Nat.succ_mul]; omega
      obtain ⟨x, xs, rfl⟩ : ∃ x xs, l = x :: xs := by
        cases l with
        | nil => simp at hpos
        | cons x xs => exact ⟨x, xs, rfl⟩
      obtain ⟨fl, rfl⟩ : ∃ fl, fuel = fl + 1 := by
        cases fuel with
        | zero => omega
        | succ fl => exact ⟨fl, rfl⟩
      have hdroplen : ((x :: xs).drop cs).length = W * cs := by
        rw [List.length_drop, hlen, Nat.succ_mul]; omega
      have hdropfuel : ((x :: xs).drop cs).length ≤ fl := by
        rw [List.length_drop]; omega
      rw [show chunkGo cs (fl + 1) (x :: xs) =
            (x :: xs).take cs :: chunkGo cs fl ((x :: xs).drop cs) from rfl,
          ih _ fl hdroplen hdropfuel, List.range_succ_eq_map, List.map_cons, List.map_map]
      simp only [Nat.zero_mul, List.drop_zero]
      congr 1
      apply List.map_congr_left
      intro w _
      simp only [Function.comp]
      rw [List.drop_drop]
      congr 2
      rw [Nat.succ_mul]
      omega

theorem chunkTensor_uniform {cs W : Nat} {l : List β} (hcs : 1 ≤ cs) (hlen : l.length = W * cs) :
    chunkTensor l cs = some ((List.range W).map (fun w => (l.drop (w * cs)).take cs)) := by
  rw [chunkTensor, if_neg (by omega),
      chunkGo_uniform cs hcs W l l.length hlen (Nat.le_refl _)]

theorem flatten_slices (b : Nat) :
    ∀ (W : Nat) (l : List β), l.length = W * b →
      ((List.range W).map (fun w => (l.drop (w * b)).take b)).flatten = l := by
  intro W
  induction W with
  | zero =>
      intro l hlen
      have hnil : l = [] := List.eq_nil_of_length_eq_zero (by simpa using hlen)
      subst hnil; simp
  | succ W ih =>
      intro l hlen
      rw [List.range_succ_eq_map, List.map_cons, List.flatten_cons, List.map_map]
      simp only [Nat.zero_mul, List.drop_zero]
      have h2 : (List.range W).map ((fun w => (l.drop (w * b)).take b) ∘ Nat.succ) =
          (List.range W).map (fun w => ((l.drop b).drop (w * b)).take b) := by
        apply List.map_congr_left
        intro w _
        simp only [Function.comp]
        rw [List.drop_drop]
        congr 2
        rw [Nat.succ_mul]
        omega
      rw [h2, ih (l.drop b) (by rw [List.length_drop, hlen, Nat.succ_mul]; omega)]
      exact List.take_append_drop b l

theorem width_eq_of_matDims {m₁ m₂ : Mat β} (h : matDims m₁ = matDims m₂) :
    width m₁ = width m₂ := by
  cases m₁ with
  | nil =>
      cases m₂ with
      | nil => rfl
      | cons q qs => simp [matDims] at h
  | cons r rs =>
      cases m₂ with
      | nil => simp [matDims] at h
      | cons q qs =>
          simp only [matDims, Prod.mk.injEq, List.map_cons, List.cons.injEq] at h
          simpa [width] using h.2.1

theorem rowsCols_slice {l : Mat β} {W b c : Nat} (hl : rowsCols l (W * b) c)
    {w : Nat} (hw : w < W) : rowsCols ((l.drop (w * b)).take b) b c := by
  constructor
  · rw [List.length_take, List.length_drop, hl.1]
    have hmul : (w + 1) * b ≤ W * b := Nat.mul_le_mul_right b hw
    rw [Nat.succ_mul] at hmul
    omega
  · intro row hrow
    exact hl.2 row (List.mem_of_mem_drop (List.mem_of_mem_take hrow))

theorem cubeShape_slice {t : Cube β} {W b c d : Nat} (ht : cubeShape t (W * b) c d)
    {w : Nat} (hw : w < W) : cubeShape ((t.drop (w * b)).take b) b c d := by
  constructor
  · rw [List.length_take, List.length_drop, ht.1]
    have hmul : (w + 1) * b ≤ W * b := Nat.mul_le_mul_right b hw
    rw [Nat.succ_mul] at hmul
    omega
  · intro m hm
    exact ht.2 m (List.mem_of_mem_drop (List.mem_of_mem_take hm))

/-- Inversion principle for a successful multi-process `retrieve`: the run
had at least one participant, the gather shape condition held, the three
chunkings succeeded, the scatter shape condition held, and every worker's
output is `workerOutput` of its received chunks. -/
theorem retrieveMulti_eq_some {α ε D : Type}
    {f : Mat α → Mat α → Mat α → Nat → ε → MainRetrieveResult α}
    {g : Mat Int → D} {inputs : List (RetrieveInput α ε)} {outs : List (RetrieveOutput α D)}
    (h : retrieveMulti f g inputs = some outs) :
    ∃ inp0 rest si sv ss, inputs = inp0 :: rest ∧
      gatherPre inp0 (inp0 :: rest) ∧
      chunkTensor (globalResult f inp0 rest).doc_ids
        inp0.combined_hidden_states.length = some si ∧
      chunkTensor (globalResult f inp0 rest).vectors
        inp0.combined_hidden_states.length = some sv ∧
      chunkTensor (globalResult f inp0 rest).scores
        inp0.combined_hidden_states.length = some ss ∧
      scatterPost inp0 (inp0 :: rest) si sv ss ∧
      outs = (List.range (inp0 :: rest).length).map (workerOutput g si sv ss) := by
  cases inputs with
  | nil => simp [retrieveMulti] at h
  | cons inp0 rest =>
      rw [show retrieveMulti f g (inp0 :: rest) = retrieveMultiCore f g inp0 rest from rfl,
          retrieveMultiCore] at h
      refine ⟨inp0, rest, ?_⟩
      split at h
      · rw [Option.bind_eq_some] at h
        obtain ⟨si, hsi, h⟩ := h
        rw [Option.bind_eq_some] at h
        obtain ⟨sv, hsv, h⟩ := h
        rw [Option.bind_eq_some] at h
        obtain ⟨ss, hss, h⟩ := h
        split at h
        · injection h with h
          exact ⟨si, sv, ss, rfl, by assumption, hsi, hsv, hss, by assumption, h.symm⟩
        · simp at h
      · simp at h

/-- Characterization of a successful multi-process `retrieve` with uniform
per-worker shapes: when every worker submits matrices of rank 0's shapes,
every worker asks for the same `n_docs`, and `_main_retrieve` returns
well-shaped global arrays, the call succeeds and worker `w` receives exactly
rows `w*b .. (w+1)*b - 1` of each global array, `b` being the common batch
size. -/
theorem retrieveMulti_uniform {α ε D : Type}
    (f : Mat α → Mat α → Mat α → Nat → ε → MainRetrieveResult α) (g : Mat Int → D)
    (inp0 : RetrieveInput α ε) (rest : List (RetrieveInput α ε))
    (hb : 1 ≤ inp0.combined_hidden_states.length)
    (hgather : gatherPre inp0 (inp0 :: rest))
    (hnd : ∀ inp ∈ inp0 :: rest, inp.n_docs = inp0.n_docs)
    (hI : rowsCols (globalResult f inp0 rest).doc_ids
      ((inp0 :: rest).length * inp0.combined_hidden_states.length) inp0.n_docs)
    (hV : cubeShape (globalResult f inp0 rest).vectors
      ((inp0 :: rest).length * inp0.combined_hidden_states.length) inp0.n_docs
      (width inp0.combined_hidden_states))
    (hS : rowsCols (globalResult f inp0 rest).scores
      ((inp0 :: rest).length * inp0.combined_hidden_states.length) inp0.n_docs) :
    retrieveMulti f g (inp0 :: rest) =
      some ((List.range (inp0 :: rest).length).map (workerOutput g
        ((List.range (inp0 :: rest).length).map (fun w =>
          ((globalResult f inp0 rest).doc_ids.drop
            (w * inp0.combined_hidden_states.length)).take inp0.combined_hidden_states.length))
        ((List.range (inp0 :: rest).length).map (fun w =>
          ((globalResult f inp0 rest).vectors.drop
            (w * inp0.combined_hidden_states.length)).take inp0.combined_hidden_states.length))
        ((List.range (inp0 :: rest).length).map (fun w =>
          ((globalResult f inp0 rest).scores.drop
            (w * inp0.combined_hidden_states.length)).take inp0.combined_hidden_states.length)))) := by
  have hpost : scatterPost inp0 (inp0 :: rest)
      ((List.range (inp0 :: rest).length).map (fun w =>
        ((globalResult f inp0 rest).doc_ids.drop
          (w * inp0.combined_hidden_states.length)).take inp0.combined_hidden_states.length))
      ((List.range (inp0 :: rest).length).map (fun w =>
        ((globalResult f inp0 rest).vectors.drop
          (w * inp0.combined_hidden_states.length)).take inp0.combined_hidden_states.length))
      ((List.range (inp0 :: rest).length).map (fun w =>
        ((globalResult f inp0 rest).scores.drop
          (w * inp0.combined_hidden_states.length)).take inp0.combined_hidden_states.length)) := by
    refine ⟨by simp, by simp, by simp, ?_⟩
    intro w hw
    have hmem : (inp0 :: rest).getD w inp0 ∈ inp0 :: rest := by
      rw [List.getD_eq_getElem _ _ hw]
      exact List.getElem_mem _
    obtain ⟨hcomb, hcurr, hhist⟩ := hgather _ hmem
    have hblen : ((inp0 :: rest).getD w inp0).combined_hidden_states.length =
        inp0.combined_hidden_states.length := congrArg Prod.fst hcomb
    have hwidth : width ((inp0 :: rest).getD w inp0).combined_hidden_states =
        width inp0.combined_hidden_states := width_eq_of_matDims hcomb
    have hndw : ((inp0 :: rest).getD w inp0).n_docs = inp0.n_docs := hnd _ hmem
    rw [getD_map_range _ _ _ _ hw, getD_map_range _ _ _ _ hw, getD_map_range _ _ _ _ hw,
        hblen, hwidth, hndw]
    exact ⟨rowsCols_slice hI hw, cubeShape_slice hV hw, rowsCols_slice hS hw⟩
  rw [show retrieveMulti f g (inp0 :: rest) = retrieveMultiCore f g inp0 rest from rfl,
      retrieveMultiCore, if_pos hgather,
      chunkTensor_uniform hb hI.1, chunkTensor_uniform hb hV.1, chunkTensor_uniform hb hS.1]
  simp only [Option.some_bind]
  rw [if_pos hpost]

theorem map_workerOutput_doc_ids {α D : Type} (g : Mat Int → D) (si : List (Mat Int))
    (sv : List (Cube α)) (ss : List (Mat α)) (n : Nat) :
    ((List.range n).map (workerOutput g si sv ss)).map
      (fun o : RetrieveOutput α D => o.doc_ids) = (List.range n).map (fun w => si.getD w []) := by
  rw [List.map_map]
  rfl

theorem map_workerOutput_embeds {α D : Type} (g : Mat Int → D) (si : List (Mat Int))
    (sv : List (Cube α)) (ss : List (Mat α)) (n : Nat) :
    ((List.range n).map (workerOutput g si sv ss)).map
      (fun o : RetrieveOutput α D => o.retrieved_doc_embeds) =
      (List.range n).map (fun w => sv.getD w []) := by
  rw [List.map_map]
  rfl

theorem map_workerOutput_scores {α D : Type} (g : Mat Int → D) (si : List (Mat Int))
    (sv : List (Cube α)) (ss : List (Mat α)) (n : Nat) :
    ((List.range n).map (workerOutput g si sv ss)).map
      (fun o : RetrieveOutput α D => o.doc_scores) = (List.range n).map (fun w => ss.getD w []) := by
  rw [List.map_map]
  rfl

theorem find?_eq_some_split {β : Type} (p : β → Bool) :
    ∀ (l : List β) (x : β), l.find? p = some x →
      p x = true ∧ ∃ pre post, l = pre ++ x :: post ∧ ∀ a ∈ pre, p a = false := by
  intro l
  induction l with
  | nil => intro x h; simp at h
  | cons a as ih =>
      intro x h
      by_cases ha : p a = true
      · rw [List.find?_cons_of_pos as ha] at h
        injection h with h
        subst h
        exact ⟨ha, [], as, rfl, by simp⟩
      · rw [List.find?_cons_of_neg as ha] at h
        obtain ⟨hp, pre, post, rfl, hpre⟩ := ih x h
        refine ⟨hp, a :: pre, post, rfl, ?_⟩
        intro b hb
        rcases List.mem_cons.mp hb with rfl | hb
        · simpa using ha
        · exact hpre b hb

/-! ### Claim theorems -/

/-- Claim C3: `init_retrieval` calls `index.init_index` exactly on these
processes: with a default channel active (`dist.is_initialized()`), on the
rank-0 process of the retrieval group and on no other rank; with no default
channel active, unconditionally, with no retrieval channel and no barrier set
up (the event trace is exactly `[initIndex]`). -/
theorem init_index_load_policy (rank distributedPort : Nat) (addrs : List String) :
    (∀ ifname t, inferSocketIfname addrs = some ifname →
      init_retrieval true rank distributedPort addrs = some t →
      (InitEvent.initIndex ∈ t ↔ rank = 0)) ∧
    (∀ t, init_retrieval false rank distributedPort addrs = some t →
      t = [InitEvent.initIndex]) := by
  constructor
  · intro ifname t hif hinit
    simp only [init_retrieval, hif, if_true] at hinit
    injection hinit with hinit
    subst hinit
    by_cases hr : rank = 0
    · subst hr
      simp [isMain]
    · have hmain : isMain rank = false := by
        unfold isMain
        exact beq_false_of_ne hr
      simp [hmain, hr]
  · intro t hinit
    simp only [init_retrieval, Bool.false_eq_true, if_false, Option.some.injEq] at hinit
    exact hinit.symm

theorem init_index_load_policy_witness :
    (InitEvent.initIndex ∈ [InitEvent.setEnv "GLOO_SOCKET_IFNAME" "eth0",
        InitEvent.setEnv "MASTER_PORT" (toString (29500 + 1)), InitEvent.newGroup "gloo" true,
        InitEvent.barrier] ↔ (1 : Nat) = 0) ∧
    ([InitEvent.initIndex] : List InitEvent) = [InitEvent.initIndex] :=
  ⟨(init_index_load_policy 1 29500 ["eth0"]).1 "eth0" _ (by decide) (by decide),
   (init_index_load_policy 1 29500 ["eth0"]).2 [InitEvent.initIndex] (by decide)⟩

/-- Claim C4: in multi-process mode every participant's `init_retrieval`
trace ends with the collective barrier (so no worker returns from
`init_retrieval`, hence issues its first `retrieve`, before entering the
barrier), rank 0's `init_index` happens strictly inside its trace before the
barrier, and in the happens-before order generated by program order plus the
barrier (a barrier releases only after every participant entered it), rank
0's `initIndex` event happens-before every worker's first `retrieveStart`
event. -/
theorem init_barrier_happens_before (rank distributedPort : Nat) (addrs : List String)
    (ifname : String) (h : inferSocketIfname addrs = some ifname) :
    (∃ pre, init_retrieval true rank distributedPort addrs = some (pre ++ [InitEvent.barrier]) ∧
      InitEvent.barrier ∉ pre ∧ (InitEvent.initIndex ∈ pre ↔ rank = 0)) ∧
    (∃ i j, (timeline 0 distributedPort addrs)[i]? = some InitEvent.initIndex ∧
      (timeline rank distributedPort addrs)[j]? = some InitEvent.retrieveStart ∧
      hbEvents (fun r => timeline r distributedPort addrs) (0, i) (rank, j)) := by
  have ht0 : timeline 0 distributedPort addrs =
      [InitEvent.setEnv "GLOO_SOCKET_IFNAME" ifname,
       InitEvent.setEnv "MASTER_PORT" (toString (distributedPort + 1)),
       InitEvent.newGroup "gloo" true, InitEvent.initIndex, InitEvent.barrier,
       InitEvent.retrieveStart] := by
    simp [timeline, init_retrieval, h, isMain]
  have hb0 : barrierPos (timeline 0 distributedPort addrs) = 4 := by
    rw [ht0]; rfl
  by_cases hr : rank = 0
  · subst hr
    constructor
    · refine ⟨[InitEvent.setEnv "GLOO_SOCKET_IFNAME" ifname,
          InitEvent.setEnv "MASTER_PORT" (toString (distributedPort + 1)),
          InitEvent.newGroup "gloo" true, InitEvent.initIndex], ?_, by simp, by simp⟩
      simp [init_retrieval, h, isMain]
    · refine ⟨3, 5, by rw [ht0]; rfl, by rw [ht0]; rfl, Or.inr ⟨?_, ?_⟩⟩
      · rw [hb0]
        exact Nat.le_succ 3
      · rw [hb0]
        exact Nat.le.refl
  · have hmain : isMain rank = false := by
      unfold isMain
      exact beq_false_of_ne hr
    have htr : timeline rank distributedPort addrs =
        [InitEvent.setEnv "GLOO_SOCKET_IFNAME" ifname,
         InitEvent.setEnv "MASTER_PORT" (toString (distributedPort + 1)),
         InitEvent.newGroup "gloo" true, InitEvent.barrier, InitEvent.retrieveStart] := by
      simp [timeline, init_retrieval, h, hmain]
    have hbr : barrierPos (timeline rank distributedPort addrs) = 3 := by
      rw [htr]; rfl
    constructor
    · refine ⟨[InitEvent.setEnv "GLOO_SOCKET_IFNAME" ifname,
          InitEvent.setEnv "MASTER_PORT" (toString (distributedPort + 1)),
          InitEvent.newGroup "gloo" true], ?_, by simp, by simp [hr]⟩
      simp [init_retrieval, h, hmain]
    · refine ⟨3, 4, by rw [ht0]; rfl, by rw [htr]; rfl, Or.inr ⟨?_, ?_⟩⟩
      · rw [hb0]
        exact Nat.le_succ 3
      · rw [hbr]
        exact Nat.le.refl

theorem init_barrier_happens_before_witness :
    (∃ pre, init_retrieval true 1 29500 ["eth0"] = some (pre ++ [InitEvent.barrier]) ∧
      InitEvent.barrier ∉ pre ∧ (InitEvent.initIndex ∈ pre ↔ (1 : Nat) = 0)) ∧
    (∃ i j, (timeline 0 29500 ["eth0"])[i]? = some InitEvent.initIndex ∧
      (timeline 1 29500 ["eth0"])[j]? = some InitEvent.retrieveStart ∧
      hbEvents (fun r => timeline r 29500 ["eth0"]) (0, i) (1, j)) :=
  init_barrier_happens_before 1 29500 ["eth0"] "eth0" (by decide)

/-- Claim C5: `_is_main` returns true iff the calling process's rank within
the retrieval channel equals 0; it is a pure function of the rank (hence
side-effect-free), and in any retrieval group of size W ≥ 1 exactly one rank
(namely 0) satisfies it. -/
theorem is_main_iff_rank_zero (rank W : Nat) (hW : 1 ≤ W) :
    (isMain rank = true ↔ rank = 0) ∧ ∃! r, r < W ∧ isMain r = true := by
  constructor
  · simp [isMain]
  · refine ⟨0, ⟨hW, rfl⟩, ?_⟩
    intro y hy
    simpa [isMain] using hy.2

theorem is_main_iff_rank_zero_witness :
    ((isMain 7 = true ↔ (7 : Nat) = 0) ∧ ∃! r, r < 3 ∧ isMain r = true) :=
  is_main_iff_rank_zero 7 3 (by decide)

/-- Claim C6: `_infer_socket_ifname` returns the first enumerated interface
name starting with the letter "e" and `none` when there is no such name; in
particular on `["lo", "eth0", "wlan0"]` it returns `"eth0"` and on
`["lo", "wlan0"]` it returns `none`. -/
theorem infer_socket_ifname_spec (addrs : List String) :
    inferSocketIfname ["lo", "eth0", "wlan0"] = some "eth0" ∧
    inferSocketIfname ["lo", "wlan0"] = none ∧
    (inferSocketIfname addrs = none ↔ ∀ a ∈ addrs, pyStartsWith a "e" = false) ∧
    (∀ ifname, inferSocketIfname addrs = some ifname →
      pyStartsWith ifname "e" = true ∧
      ∃ pre post, addrs = pre ++ ifname :: post ∧ ∀ a ∈ pre, pyStartsWith a "e" = false) := by
  refine ⟨by decide, by decide, ?_, ?_⟩
  · rw [inferSocketIfname, List.find?_eq_none]
    simp only [Bool.not_eq_true]
  · intro ifname hfind
    exact find?_eq_some_split _ addrs ifname hfind

theorem infer_socket_ifname_spec_witness :
    pyStartsWith "ens3" "e" = true ∧
    ∃ pre post, ["lo", "ens3"] = pre ++ "ens3" :: post ∧
      ∀ a ∈ pre, pyStartsWith a "e" = false :=
  (infer_socket_ifname_spec ["lo", "ens3"]).2.2.2 "ens3" (by decide)

/-- Claim C7: when a default channel is active, `init_retrieval` performs
exactly two environment writes before creating the retrieval channel —
`GLOO_SOCKET_IFNAME` set to the inferred interface name and `MASTER_PORT` set
to `str(distributed_port + 1)` — and then creates the dedicated channel with
the gloo backend over all ranks (`ranks=None`), with no further environment
write or channel creation in the rest of the trace; when no default channel
is active, no environment write happens and no channel is created
(`process_group` stays `None`). -/
theorem init_env_and_channel (rank distributedPort : Nat) (addrs : List String) :
    (∀ ifname, inferSocketIfname addrs = some ifname →
      ∃ t, init_retrieval true rank distributedPort addrs = some t ∧
        t.take 3 = [InitEvent.setEnv "GLOO_SOCKET_IFNAME" ifname,
          InitEvent.setEnv "MASTER_PORT" (toString (distributedPort + 1)),
          InitEvent.newGroup "gloo" true] ∧
        (∀ k v, InitEvent.setEnv k v ∉ t.drop 3) ∧
        (∀ bk ar, InitEvent.newGroup bk ar ∉ t.drop 3)) ∧
    (∀ t, init_retrieval false rank distributedPort addrs = some t →
      (∀ k v, InitEvent.setEnv k v ∉ t) ∧ (∀ bk ar, InitEvent.newGroup bk ar ∉ t)) := by
  constructor
  · intro ifname hif
    refine ⟨[InitEvent.setEnv "GLOO_SOCKET_IFNAME" ifname,
        InitEvent.setEnv "MASTER_PORT" (toString (distributedPort + 1)),
        InitEvent.newGroup "gloo" true] ++
        (if isMain rank then [InitEvent.initIndex] else []) ++ [InitEvent.barrier],
      by simp [init_retrieval, hif], ?_, ?_, ?_⟩
    · by_cases hr : isMain rank = true <;> simp [hr]
    · intro k v
      by_cases hr : isMain rank = true <;> simp [hr]
    · intro bk ar
      by_cases hr : isMain rank = true <;> simp [hr]
  · intro t hinit
    simp only [init_retrieval, Bool.false_eq_true, if_false, Option.some.injEq] at hinit
    subst hinit
    exact ⟨fun k v => by simp, fun bk ar => by simp⟩

theorem init_env_and_channel_witness :
    (∃ t, init_retrieval true 2 29500 ["lo", "eth0"] = some t ∧
      t.take 3 = [InitEvent.setEnv "GLOO_SOCKET_IFNAME" "eth0",
        InitEvent.setEnv "MASTER_PORT" (toString (29500 + 1)),
        InitEvent.newGroup "gloo" true] ∧
      (∀ k v, InitEvent.setEnv k v ∉ t.drop 3) ∧
      (∀ bk ar, InitEvent.newGroup bk ar ∉ t.drop 3)) ∧
    ((∀ k v, InitEvent.setEnv k v ∉ [InitEvent.initIndex]) ∧
      (∀ bk ar, InitEvent.newGroup bk ar ∉ [InitEvent.initIndex])) :=
  ⟨(init_env_and_channel 2 29500 ["lo", "eth0"]).1 "eth0" (by decide),
   (init_env_and_channel 2 29500 ["lo", "eth0"]).2 [InitEvent.initIndex] (by decide)⟩

/-- Claim C8: in single-process mode `retrieve` performs no collective
operation, invokes `_main_retrieve` once with the caller's own batch and
arguments, wraps the resulting ids through `get_doc_dicts`, and returns the
4-tuple `(doc_embeds, doc_ids, doc_scores, doc_dicts)` identical to invoking
the retrieval routine directly (`directRetrieve`, written from the spec's
description of direct invocation). -/
theorem retrieve_single_direct {α ε D : Type}
    (f : Mat α → Mat α → Mat α → Nat → ε → MainRetrieveResult α)
    (g : Mat Int → D) (inp : RetrieveInput α ε) :
    (retrieveSingle f g inp).collOps = [] ∧
    (retrieveSingle f g inp).indexOps = [IndexOp.mainRetrieveOp, IndexOp.getDocDictsOp] ∧
    ((retrieveSingle f g inp).retrieved_doc_embeds, (retrieveSingle f g inp).doc_ids,
      (retrieveSingle f g inp).doc_scores, (retrieveSingle f g inp).doc_dicts) =
      directRetrieve f g inp :=
  ⟨rfl, rfl, rfl⟩

/-- Inversion for an element of a mapped range: membership determines the
index bound and the element. -/
theorem getElem?_range_map {β : Type} {fn : Nat → β} {n w : Nat} {o : β}
    (h : ((List.range n).map fn)[w]? = some o) : w < n ∧ o = fn w := by
  rw [List.getElem?_map] at h
  cases hr : (List.range n)[w]? with
  | none => rw [hr] at h; simp at h
  | some v =>
      have hw : w < n := by
        by_contra hge
        rw [List.getElem?_eq_none (by simpa using Nat.le_of_not_lt hge)] at hr
        cases hr
      have hv : v = w := by
        rw [List.getElem?_range hw] at hr
        injection hr with hr
        exact hr.symm
      subst hv
      rw [hr, Option.map_some'] at h
      injection h with h
      exact ⟨hw, h.symm⟩

/-- Claim C1 (amended): the gather -> centralized `_main_retrieve` -> chunk ->
scatter pipeline is equivalent to direct single-process retrieval on the
concatenated batch for every worker count W >= 1, provided all W workers
submit query matrices of rank 0's shapes (with a positive common batch size)
and the same `n_docs`, and the retrieval routine returns well-shaped global
arrays: the call succeeds and the concatenation of the per-worker doc_ids,
doc_embeds and doc_scores segments in rank order equals the single-process
result on the concatenated batch.  (The original claim's "any per-worker
batch sizes" fails: the gather buffers are allocated with rank 0's shape, so
unequal batch sizes abort the collective; see the counterexample.) -/
theorem retrieve_gather_scatter_equiv {α ε D : Type}
    (f : Mat α → Mat α → Mat α → Nat → ε → MainRetrieveResult α) (g : Mat Int → D)
    (inp0 : RetrieveInput α ε) (rest : List (RetrieveInput α ε))
    (hb : 1 ≤ inp0.combined_hidden_states.length)
    (hgather : gatherPre inp0 (inp0 :: rest))
    (hnd : ∀ inp ∈ inp0 :: rest, inp.n_docs = inp0.n_docs)
    (hI : rowsCols (globalResult f inp0 rest).doc_ids
      ((inp0 :: rest).length * inp0.combined_hidden_states.length) inp0.n_docs)
    (hV : cubeShape (globalResult f inp0 rest).vectors
      ((inp0 :: rest).length * inp0.combined_hidden_states.length) inp0.n_docs
      (width inp0.combined_hidden_states))
    (hS : rowsCols (globalResult f inp0 rest).scores
      ((inp0 :: rest).length * inp0.combined_hidden_states.length) inp0.n_docs) :
    ∃ outs, retrieveMulti f g (inp0 :: rest) = some outs ∧
      (outs.map (fun o => o.doc_ids)).flatten =
        (retrieveSingle f g (concatInput inp0 rest)).doc_ids ∧
      (outs.map (fun o => o.retrieved_doc_embeds)).flatten =
        (retrieveSingle f g (concatInput inp0 rest)).retrieved_doc_embeds ∧
      (outs.map (fun o => o.doc_scores)).flatten =
        (retrieveSingle f g (concatInput inp0 rest)).doc_scores := by
  refine ⟨_, retrieveMulti_uniform f g inp0 rest hb hgather hnd hI hV hS, ?_, ?_, ?_⟩
  · rw [map_workerOutput_doc_ids, range_map_getD_map, flatten_slices _ _ _ hI.1]
    rfl
  · rw [map_workerOutput_embeds, range_map_getD_map, flatten_slices _ _ _ hV.1]
    rfl
  · rw [map_workerOutput_scores, range_map_getD_map, flatten_slices _ _ _ hS.1]
    rfl

theorem retrieve_gather_scatter_equiv_witness :
    ∃ outs, retrieveMulti testRetrieve (fun ids => ids) [inpOf [[3]] 2] = some outs ∧
      (outs.map (fun o => o.doc_ids)).flatten =
        (retrieveSingle testRetrieve (fun ids => ids) (concatInput (inpOf [[3]] 2) [])).doc_ids ∧
      (outs.map (fun o => o.retrieved_doc_embeds)).flatten =
        (retrieveSingle testRetrieve (fun ids => ids)
          (concatInput (inpOf [[3]] 2) [])).retrieved_doc_embeds ∧
      (outs.map (fun o => o.doc_scores)).flatten =
        (retrieveSingle testRetrieve (fun ids => ids)
          (concatInput (inpOf [[3]] 2) [])).doc_scores :=
  retrieve_gather_scatter_equiv testRetrieve (fun ids => ids) (inpOf [[3]] 2) []
    (by decide) (by decide) (by decide) (by decide) (by decide) (by decide)

/-- Claim C1 counterexample: two workers with batch sizes 3 and 2 (the
spec's own W=2 example).  The multi-process call aborts (the gather buffers
on rank 0 are allocated with rank 0's batch size 3, which worker B's 2-row
tensor cannot fill), so it does not produce the single-process result on the
concatenated batch, which is a well-formed 5-row answer. -/
theorem retrieve_unequal_batches_abort :
    retrieveMulti testRetrieve (fun ids => ids)
      [inpOf [[0], [0], [0]] 4, inpOf [[0], [0]] 4] = none ∧
    (retrieveSingle testRetrieve (fun ids => ids)
      (concatInput (inpOf [[0], [0], [0]] 4) [inpOf [[0], [0]] 4])).doc_ids.length = 5 :=
  ⟨by decide, by decide⟩

/-- Claim C2 (amended): rank 0 partitions each of the three global result
arrays along the query dimension into `chunk_size = n_queries` segments where
`n_queries` is rank 0's own batch size.  Since the gather step already forces
every worker's batch size to equal rank 0's, under that uniformity worker w's
returned arrays have leading dimension equal to its own batch size b and
equal exactly rows w*b .. (w+1)*b - 1 of the global result.  (The original
claim's unequal-size example b = (3, 2) aborts instead; see the
counterexample.) -/
theorem scatter_chunks_rank0_batch {α ε D : Type}
    (f : Mat α → Mat α → Mat α → Nat → ε → MainRetrieveResult α) (g : Mat Int → D)
    (inp0 : RetrieveInput α ε) (rest : List (RetrieveInput α ε))
    (hb : 1 ≤ inp0.combined_hidden_states.length)
    (hgather : gatherPre inp0 (inp0 :: rest))
    (hnd : ∀ inp ∈ inp0 :: rest, inp.n_docs = inp0.n_docs)
    (hI : rowsCols (globalResult f inp0 rest).doc_ids
      ((inp0 :: rest).length * inp0.combined_hidden_states.length) inp0.n_docs)
    (hV : cubeShape (globalResult f inp0 rest).vectors
      ((inp0 :: rest).length * inp0.combined_hidden_states.length) inp0.n_docs
      (width inp0.combined_hidden_states))
    (hS : rowsCols (globalResult f inp0 rest).scores
      ((inp0 :: rest).length * inp0.combined_hidden_states.length) inp0.n_docs) :
    ∃ outs, retrieveMulti f g (inp0 :: rest) = some outs ∧
      outs.length = (inp0 :: rest).length ∧
      ∀ w o, outs[w]? = some o →
        o.doc_ids = ((globalResult f inp0 rest).doc_ids.drop
          (w * inp0.combined_hidden_states.length)).take inp0.combined_hidden_states.length ∧
        o.doc_ids.length = inp0.combined_hidden_states.length ∧
        o.retrieved_doc_embeds = ((globalResult f inp0 rest).vectors.drop
          (w * inp0.combined_hidden_states.length)).take inp0.combined_hidden_states.length ∧
        o.retrieved_doc_embeds.length = inp0.combined_hidden_states.length ∧
        o.doc_scores = ((globalResult f inp0 rest).scores.drop
          (w * inp0.combined_hidden_states.length)).take inp0.combined_hidden_states.length ∧
        o.doc_scores.length = inp0.combined_hidden_states.length := by
  refine ⟨_, retrieveMulti_uniform f g inp0 rest hb hgather hnd hI hV hS, by simp, ?_⟩
  intro w o ho
  obtain ⟨hw, rfl⟩ := getElem?_range_map ho
  simp only [workerOutput]
  rw [getD_map_range _ _ _ _ hw, getD_map_range _ _ _ _ hw, getD_map_range _ _ _ _ hw]
  exact ⟨rfl, (rowsCols_slice hI hw).1, rfl, (cubeShape_slice hV hw).1, rfl,
    (rowsCols_slice hS hw).1⟩

theorem scatter_chunks_rank0_batch_witness :
    ∃ outs, retrieveMulti testRetrieve (fun ids => ids)
        [inpOf [[1], [2]] 3, inpOf [[5], [6]] 3] = some outs ∧
      outs.length = 2 ∧
      ∀ w o, outs[w]? = some o →
        o.doc_ids = ((globalResult testRetrieve (inpOf [[1], [2]] 3)
          [inpOf [[5], [6]] 3]).doc_ids.drop (w * 2)).take 2 ∧
        o.doc_ids.length = 2 ∧
        o.retrieved_doc_embeds = ((globalResult testRetrieve (inpOf [[1], [2]] 3)
          [inpOf [[5], [6]] 3]).vectors.drop (w * 2)).take 2 ∧
        o.retrieved_doc_embeds.length = 2 ∧
        o.doc_scores = ((globalResult testRetrieve (inpOf [[1], [2]] 3)
          [inpOf [[5], [6]] 3]).scores.drop (w * 2)).take 2 ∧
        o.doc_scores.length = 2 :=
  scatter_chunks_rank0_batch testRetrieve (fun ids => ids) (inpOf [[1], [2]] 3)
    [inpOf [[5], [6]] 3] (by decide) (by decide) (by decide) (by decide) (by decide) (by decide)

/-- Claim C2 counterexample: with worker A submitting batch size 3 and worker
B batch size 2 (n_docs = 4), the multi-process call aborts: worker A does not
receive a (3, 4) `doc_ids` array — no worker receives anything. -/
theorem scatter_unequal_chunks_abort :
    retrieveMulti testRetrieve (fun ids => ids)
      [inpOf [[1, 0], [2, 0], [3, 0]] 4, inpOf [[4, 0], [5, 0]] 4] = none := by
  decide

/-- Claim C9 (amended): during a successful multi-process `retrieve`,
`_main_retrieve` is invoked by rank 0 and by no other rank, and `init_index`
is invoked (during `init_retrieval`) only by rank 0; `get_doc_dicts`,
however, is invoked by every rank on its own received ids (line 161 runs on
all ranks), so the original claim that no non-zero rank ever calls
`get_doc_dicts` is false. -/
theorem index_ops_localized {α ε D : Type} :
    (∀ (f : Mat α → Mat α → Mat α → Nat → ε → MainRetrieveResult α) (g : Mat Int → D)
        (inputs : List (RetrieveInput α ε)) (w : Nat) (o : RetrieveOutput α D),
      (retrieveMulti f g inputs).bind (fun outs => outs[w]?) = some o →
      ((IndexOp.mainRetrieveOp ∈ o.indexOps) ↔ w = 0) ∧ IndexOp.getDocDictsOp ∈ o.indexOps) ∧
    (∀ (rank distributedPort : Nat) (addrs : List String) (t : List InitEvent),
      init_retrieval true rank distributedPort addrs = some t →
      (InitEvent.initIndex ∈ t ↔ rank = 0)) := by
  constructor
  · intro f g inputs w o ho
    rw [Option.bind_eq_some] at ho
    obtain ⟨outs, hmulti, ho⟩ := ho
    obtain ⟨inp0, rest, si, sv, ss, rfl, hg, hsi, hsv, hss, hp, rfl⟩ :=
      retrieveMulti_eq_some hmulti
    obtain ⟨hw, rfl⟩ := getElem?_range_map ho
    simp only [workerOutput]
    by_cases hw0 : w = 0 <;> simp [hw0]
  · intro rank distributedPort addrs t hinit
    simp only [init_retrieval, if_true] at hinit
    cases hif : inferSocketIfname addrs with
    | none => simp [hif] at hinit
    | some ifname =>
        simp only [hif, Option.some.injEq] at hinit
        subst hinit
        by_cases hr : rank = 0
        · subst hr
          simp [isMain]
        · have hmain : isMain rank = false := by
            unfold isMain
            exact beq_false_of_ne hr
          simp [hmain, hr]

theorem index_ops_localized_witness :
    ((IndexOp.mainRetrieveOp ∈ [IndexOp.getDocDictsOp] ↔ (1 : Nat) = 0) ∧
      IndexOp.getDocDictsOp ∈ [IndexOp.getDocDictsOp]) ∧
    (InitEvent.initIndex ∈ [InitEvent.setEnv "GLOO_SOCKET_IFNAME" "eth0",
        InitEvent.setEnv "MASTER_PORT" (toString (29500 + 1)), InitEvent.newGroup "gloo" true,
        InitEvent.initIndex, InitEvent.barrier] ↔ (0 : Nat) = 0) :=
  ⟨(@index_ops_localized Int Unit (Mat Int)).1 testRetrieve (fun ids => ids)
      [inpOf [[1]] 1, inpOf [[2]] 1] 1
      ⟨[[[2]]], [[0]], [[1]], [[0]], [IndexOp.getDocDictsOp],
        [CollOp.gatherOp, CollOp.gatherOp, CollOp.gatherOp,
         CollOp.scatterOp, CollOp.scatterOp, CollOp.scatterOp]⟩ (by decide),
   (@index_ops_localized Int Unit (Mat Int)).2 0 29500 ["eth0"]
      [InitEvent.setEnv "GLOO_SOCKET_IFNAME" "eth0",
       InitEvent.setEnv "MASTER_PORT" (toString (29500 + 1)), InitEvent.newGroup "gloo" true,
       InitEvent.initIndex, InitEvent.barrier] (by decide)⟩

/-- Claim C9 counterexample: in a successful two-worker `retrieve`, the
non-zero rank (rank 1) performs a `get_doc_dicts` call — its index-operation
log is `[getDocDictsOp]` — contradicting the claim that no non-zero rank ever
calls `get_doc_dicts`. -/
theorem nonzero_rank_resolves_doc_dicts :
    ((retrieveMulti testRetrieve (fun ids => ids) [inpOf [[1]] 1, inpOf [[2]] 1]).bind
      (fun outs => outs[1]?)).map (fun o => o.indexOps) = some [IndexOp.getDocDictsOp] := by
  decide

/-- Claim C10: the arrays a worker returns from a successful multi-process
`retrieve` are received into buffers allocated on the receiver side from the
caller's own inputs — `scatterSpecs` records the `(target_shape, target_type)`
arguments of the three `_scattered` calls, int64 `[b, n_docs]` for ids and
float32 `[b, n_docs, d]` / `[b, n_docs]` for embeddings / scores with `b` and
`d` the row count and row width of the caller's own
`combined_hidden_states` — and consequently the returned arrays have exactly
those shapes. -/
theorem scatter_alloc_receiver_side {α ε D : Type}
    (f : Mat α → Mat α → Mat α → Nat → ε → MainRetrieveResult α) (g : Mat Int → D)
    (inputs : List (RetrieveInput α ε)) (outs : List (RetrieveOutput α D))
    (hsucc : retrieveMulti f g inputs = some outs) :
    (∀ inp : RetrieveInput α ε, scatterSpecs inp =
      [([inp.combined_hidden_states.length, inp.n_docs], DType.int64),
       ([inp.combined_hidden_states.length, inp.n_docs, width inp.combined_hidden_states],
         DType.float32),
       ([inp.combined_hidden_states.length, inp.n_docs], DType.float32)]) ∧
    outs.length = inputs.length ∧
    (∀ (w : Nat) (inp : RetrieveInput α ε) (o : RetrieveOutput α D),
      inputs[w]? = some inp → outs[w]? = some o →
      rowsCols o.doc_ids inp.combined_hidden_states.length inp.n_docs ∧
      cubeShape o.retrieved_doc_embeds inp.combined_hidden_states.length inp.n_docs
        (width inp.combined_hidden_states) ∧
      rowsCols o.doc_scores inp.combined_hidden_states.length inp.n_docs) := by
  obtain ⟨inp0, rest, si, sv, ss, rfl, hg, hsi, hsv, hss, hp, rfl⟩ :=
    retrieveMulti_eq_some hsucc
  refine ⟨fun inp => rfl, by simp, ?_⟩
  intro w inp o hin ho
  obtain ⟨hw, rfl⟩ := getElem?_range_map ho
  have hgetD : (inp0 :: rest).getD w inp0 = inp := by
    rw [List.getD_eq_getElem?_getD, hin]
    rfl
  have hp2 := hp.2.2.2 w hw
  rw [hgetD] at hp2
  simpa only [workerOutput] using hp2

theorem scatter_alloc_receiver_side_witness :
    rowsCols ([[0]] : Mat Int) 1 1 ∧ cubeShape ([[[9]]] : Cube Int) 1 1 1 ∧
      rowsCols ([[1]] : Mat Int) 1 1 :=
  (scatter_alloc_receiver_side testRetrieve (fun ids => ids) [inpOf [[9]] 1]
      [⟨[[[9]]], [[0]], [[1]], [[0]], [IndexOp.mainRetrieveOp, IndexOp.getDocDictsOp],
        [CollOp.gatherOp, CollOp.gatherOp, CollOp.gatherOp,
         CollOp.scatterOp, CollOp.scatterOp, CollOp.scatterOp]⟩]
      (by decide)).2.2 0 (inpOf [[9]] 1)
      ⟨[[[9]]], [[0]], [[1]], [[0]], [IndexOp.mainRetrieveOp, IndexOp.getDocDictsOp],
        [CollOp.gatherOp, CollOp.gatherOp, CollOp.gatherOp,
         CollOp.scatterOp, CollOp.scatterOp, CollOp.scatterOp]⟩
      (by decide) (by decide)

end DialDoc
